import Mathlib

/-!
# Verification of the bitsym-booking availability and booking engine

Shallow embedding of the appointment availability / slot-conflict engine of
the `bitsym-booking` repository, together with proofs about its behavior.

Times of day are modelled as minutes since midnight (`Nat`).  Time strings
(`"HH:MM"`, `"HH:MM:SS"`) are modelled as `String` where the code manipulates
them as strings.  The hosted relational store is modelled as explicit lists of
rows, and each HTTP handler as a pure function from its inputs (the rows the
handler's queries would return) to the response it produces and the rows it
writes.
-/

/-! ## Slot generation (src/pages/api/patient/check-availability.js, lines 102-128)

The handler generates candidate slots with

```
let current = start; while (current < end) { push(current); current += 30 }
```

`genSlots cur fin` is that loop, on minutes since midnight.  It is implemented
on a structural fuel argument (`genSlotsAux`) so that it evaluates by `decide`;
`genSlots_eq` proves it satisfies exactly the loop's recurrence, so nothing is
lost with respect to the source.
-/

def genSlotsAux : Nat → Nat → Nat → List Nat
  | 0, _, _ => []
  | fuel + 1, cur, fin => if cur < fin then cur :: genSlotsAux fuel (cur + 30) fin else []

def genSlots (start fin : Nat) : List Nat :=
  genSlotsAux (fin - start + 1) start fin

theorem genSlotsAux_congr : ∀ (f g cur fin : Nat), fin - cur ≤ 30 * f → fin - cur ≤ 30 * g →
    genSlotsAux f cur fin = genSlotsAux g cur fin := by
  intro f
  induction f with
  | zero =>
    intro g cur fin hf _
    have hnlt : ¬ cur < fin := by omega
    cases g with
    | zero => rfl
    | succ g => simp [genSlotsAux, hnlt]
  | succ f ih =>
    intro g cur fin hf hg
    by_cases hlt : cur < fin
    · cases g with
      | zero => omega
      | succ g =>
        simp only [genSlotsAux, hlt, if_true]
        rw [ih g (cur + 30) fin (by omega) (by omega)]
    · cases g with
      | zero => simp [genSlotsAux, hlt]
      | succ g => simp [genSlotsAux, hlt]

/-- The defining recurrence of the slot-generation loop: it emits `start` and
continues from `start + 30` as long as `start < end`. -/
theorem genSlots_eq (start fin : Nat) :
    genSlots start fin = if start < fin then start :: genSlots (start + 30) fin else [] := by
  by_cases hlt : start < fin
  · simp only [genSlots, hlt, if_true]
    have step : genSlotsAux (fin - start + 1) start fin =
        if start < fin then start :: genSlotsAux (fin - start) (start + 30) fin else [] := rfl
    rw [step, if_pos hlt]
    exact congrArg (List.cons start)
      (genSlotsAux_congr (fin - start) (fin - (start + 30) + 1) (start + 30) fin (by omega) (by omega))
  · simp [genSlots, genSlotsAux, hlt]

theorem genSlots_length_aux : ∀ (d start fin : Nat), fin - start ≤ d →
    (genSlots start fin).length = (fin - start + 29) / 30 := by
  intro d
  induction d with
  | zero =>
    intro start fin h
    rw [genSlots_eq]
    have hnlt : ¬ start < fin := by omega
    simp only [hnlt, if_false, List.length_nil]
    omega
  | succ d ih =>
    intro start fin h
    rw [genSlots_eq]
    by_cases hlt : start < fin
    · simp only [hlt, if_true, List.length_cons]
      rw [ih (start + 30) fin (by omega)]
      omega
    · simp only [hlt, if_false, List.length_nil]
      omega

theorem genSlots_mem_aux : ∀ (d start fin : Nat), fin - start ≤ d →
    ∀ t ∈ genSlots start fin, start ≤ t ∧ t < fin := by
  intro d
  induction d with
  | zero =>
    intro start fin h t ht
    rw [genSlots_eq] at ht
    have hnlt : ¬ start < fin := by omega
    simp [hnlt] at ht
  | succ d ih =>
    intro start fin h t ht
    rw [genSlots_eq] at ht
    by_cases hlt : start < fin
    · simp only [hlt, if_true, List.mem_cons] at ht
      rcases ht with rfl | ht
      · exact ⟨Nat.le_refl _, hlt⟩
      · have := ih (start + 30) fin (by omega) t ht
        omega
    · simp [hlt] at ht

/-! ## Time-string formatting and normalization

The handler renders each slot as an `HH:MM` string
(`String(h).padStart(2,'0') + ':' + String(m).padStart(2,'0')`,
check-availability.js lines 117-120), and normalizes each stored appointment
time with `time.includes(':') ? time.slice(0, 5) : time`
(check-availability.js lines 141-150).
-/

def pad2 (n : Nat) : String :=
  if n < 10 then "0" ++ toString n else toString n

def fmtTime (m : Nat) : String :=
  pad2 (m / 60 % 24) ++ ":" ++ pad2 (m % 60)

def normalizeTime (t : String) : String :=
  if t.toList.contains ':' then t.take 5 else t

/-! ## Data model -/

/-- One appointment row, as read and written by the handlers.  Statuses are
the literal strings used by the code: `"pending"`, `"confirmed"`,
`"cancelled"`, `"completed"`. -/
structure Apt where
  doctorId : Nat
  date : String
  time : String
  status : String
deriving DecidableEq

/-- One doctor row joined with its user row, as fetched by book.js. -/
structure Doctor where
  id : Nat
  userId : Nat
  specialty : String
  name : String
deriving DecidableEq

/-- One notification row as inserted by book.js lines 241-251. -/
structure Notif where
  userId : Nat
  type : String
deriving DecidableEq

/-- One doctor_availability row (enable-patient-insert.sql lines 33-45). -/
structure AvailRow where
  doctorId : Nat
  dayOfWeek : String
  startTime : String
  endTime : String
  isActive : Bool
deriving DecidableEq

/-- One entry of a weekly-schedule POST body (doctor/availability.js line 43). -/
structure SlotIn where
  dayOfWeek : String
  startTime : String
  endTime : String
  isActive : Bool
deriving DecidableEq

/-! ## The availability-check handler (src/pages/api/patient/check-availability.js)

`schedule` is the (optional) active doctor_availability row the handler's
day-of-week query returned, with its start/end times already split into hour
and minute components (the handler does `start_time.split(':').map(Number)`,
lines 104-105).  `appointments` are the rows of the appointments table for
this doctor and date; the handler's query filters them with
`.in('status', ['pending', 'confirmed'])` (line 136).
-/

structure ScheduleRow where
  startHour : Nat
  startMinute : Nat
  endHour : Nat
  endMinute : Nat
deriving DecidableEq

structure SlotEntry where
  time : String
  available : Bool
deriving DecidableEq

structure AvailResult where
  available : Bool
  reason : Option String
  slots : List SlotEntry
deriving DecidableEq

def checkAvailabilityHandler (schedule : Option ScheduleRow) (appointments : List Apt) :
    AvailResult :=
  match schedule with
  | none => { available := false, reason := some "day_inactive", slots := [] }
  | some sch =>
    let slotTimes := genSlots (sch.startHour * 60 + sch.startMinute)
      (sch.endHour * 60 + sch.endMinute)
    let bookedTimes :=
      (appointments.filter (fun a => a.status == "pending" || a.status == "confirmed")).map
        (fun a => normalizeTime a.time)
    let finalSlots := slotTimes.map
      (fun t => { time := fmtTime t, available := !bookedTimes.contains (fmtTime t) : SlotEntry })
    { available := true, reason := none, slots := finalSlots }

/-- Whether a generated slot is marked taken by the handler: its `HH:MM` string
is a member of the normalized booked-times set (check-availability.js
lines 140-155). -/
def slotTaken (appointmentTimes : List String) (slotTime : String) : Bool :=
  (appointmentTimes.map normalizeTime).contains slotTime

/-! ## The client-side requested-time check (src/components/VoiceBookingButton.js, lines 411-428)

The client normalizes the requested time (`length === 5 ? t : t.slice(0, 5)`)
and computes a single boolean
`normalizedRequestedTime && slots.some(s => s.time === normalized && s.available)`.
-/

def clientNormalize (t : String) : String :=
  if t.length == 5 then t else t.take 5

def isTimeAvailable (slots : List SlotEntry) (requestedTime : String) : Bool :=
  (!(clientNormalize requestedTime == "")) &&
    slots.any (fun s => s.time == clientNormalize requestedTime && s.available)

/-! ## The reservation committer (src/pages/api/book.js, lines 184-280)

The handler re-checks for an existing non-cancelled appointment at the exact
(doctor, date, time), then inserts.  `checkOk` models whether the conflict
query returned rows or an error: on error the code only logs
(`console.error`, line 194) and `existingAppointments` stays null, so the
truthiness test on line 197 is false and the insert proceeds.  `notifOk`
models whether the notification insert (lines 241-251, whose result the code
never inspects) succeeded.  The function returns the appointment store, the
notification store, and the HTTP response.
-/

/-- The predicate of the conflict query (book.js lines 185-191): same doctor,
date and time, status in ['pending', 'confirmed']. -/
def nonCancelledAt (a : Apt) (d : Nat) (date time : String) : Bool :=
  a.doctorId == d && a.date == date && a.time == time &&
    (a.status == "pending" || a.status == "confirmed")

def hasConflict (store : List Apt) (d : Nat) (date time : String) : Bool :=
  store.any (fun a => nonCancelledAt a d date time)

/-- The row inserted by book.js lines 205-217: status `'pending'`. -/
def mkApt (d : Nat) (date time : String) : Apt :=
  { doctorId := d, date := date, time := time, status := "pending" }

inductive BookResp where
  | success (doctorName specialty date time status : String)
  | conflict
deriving DecidableEq

def bookFinalize (store : List Apt) (notifs : List Notif) (checkOk notifOk : Bool)
    (doc : Doctor) (date time : String) : List Apt × List Notif × BookResp :=
  let existing : Option (List Apt) :=
    if checkOk then some (store.filter (fun a => nonCancelledAt a doc.id date time)) else none
  let conflictFound :=
    match existing with
    | some l => decide (0 < l.length)
    | none => false
  if conflictFound then
    (store, notifs, BookResp.conflict)
  else
    let apt := mkApt doc.id date time
    let notifs' := if notifOk then notifs ++ [{ userId := doc.userId, type := "new_appointment" }]
      else notifs
    (store ++ [apt], notifs', BookResp.success doc.name doc.specialty date time "pending")

/-- One legal interleaving of two concurrent executions of the committer for
the same (doctor, date, time): both conflict-check queries read the store
before either insert runs.  Each step is the committer's own (the check is
the query of book.js lines 185-191, the insert is lines 205-217); only the
ordering across the two requests is chosen here.  The repository defines no
uniqueness constraint on appointments, so nothing in the storage layer
rejects the second insert. -/
def raceInterleaving (store : List Apt) (doc : Doctor) (date time : String) : List Apt :=
  let check1 := hasConflict store doc.id date time
  let check2 := hasConflict store doc.id date time
  let store1 := if check1 then store else store ++ [mkApt doc.id date time]
  if check2 then store1 else store1 ++ [mkApt doc.id date time]

/-! ## The provider resolver (src/pages/api/book.js, lines 40-182)

The route requires a non-empty `doctor` field (line 34).  With it present the
code first fetches the full roster and asks the language-model service for a
fuzzy match, accepting the result only when a match id is present and its
confidence is strictly above 0.6 (line 137); only when that leaves no doctor
does it fall back to a case-insensitive substring search on the specialty
(`.ilike('specialty', `%${speciality}%`)`, lines 150-164).  If both leave the
list empty the route answers 404 echoing the search term (lines 175-180).

`llm` is the parsed response of the external matching call (`none` models an
unparseable response).  Confidence values are rationals; the threshold 0.6 is
written `mkRat 6 10`.
-/

structure MatchResult where
  matchId : Option Nat
  confidence : ℚ
deriving DecidableEq

/-- book.js lines 137-145: accept the fuzzy match only with a match id,
confidence strictly above 0.6, and the id present in the roster. -/
def nameMatch (roster : List Doctor) (llm : Option MatchResult) : List Doctor :=
  match llm with
  | none => []
  | some m =>
    match m.matchId with
    | none => []
    | some mid =>
      if mkRat 6 10 < m.confidence then
        match roster.find? (fun d => d.id == mid) with
        | some d => [d]
        | none => []
      else []

def lowerList (s : String) : List Char :=
  s.toList.map Char.toLower

/-- The `.ilike('specialty', `%${speciality}%`)` filter of book.js line 160:
case-insensitive substring match on the specialty label. -/
def specialtyMatches (sp : String) (d : Doctor) : Bool :=
  decide (lowerList sp <:+: lowerList d.specialty)

/-- book.js lines 49-164: name-based fuzzy match first (the `doctor` field is
always present, line 34), specialty substring search only as fallback when the
name step matched nothing and a non-empty speciality was supplied. -/
def resolveDoctors (roster : List Doctor) (doctorInput : String) (speciality : Option String)
    (llm : Option MatchResult) : List Doctor :=
  let byName := if doctorInput == "" then [] else nameMatch roster llm
  if byName.isEmpty then
    match speciality with
    | some sp => if sp == "" then byName else roster.filter (specialtyMatches sp)
    | none => byName
  else byName

/-- book.js line 41: `doctor || speciality || 'unknown'` (empty strings are
falsy in JavaScript). -/
def searchTerm (doctorInput : String) (speciality : Option String) : String :=
  if doctorInput == "" then
    match speciality with
    | some sp => if sp == "" then "unknown" else sp
    | none => "unknown"
  else doctorInput

/-- book.js lines 175-182: 404 echoing the search term when the list is empty,
else `doctors[0]` is selected. -/
def resolveProvider (roster : List Doctor) (doctorInput : String) (speciality : Option String)
    (llm : Option MatchResult) : Except String Doctor :=
  match resolveDoctors roster doctorInput speciality llm with
  | [] => Except.error (searchTerm doctorInput speciality)
  | d :: _ => Except.ok d

/-! ## The weekly-schedule upsert (src/pages/api/doctor/availability.js, lines 41-67)

The POST handler maps each submitted slot to a row keyed by the caller's
doctor id and the slot's day of week, and upserts the batch with
`onConflict: 'doctor_id, day_of_week'` against the store's
`unique (doctor_id, day_of_week)` constraint
(enable-patient-insert.sql line 44).  Upserting is modelled row by row: a row
whose (doctor, day) key is already present replaces that row, otherwise it is
appended.
-/

def sameKey (a b : AvailRow) : Bool :=
  a.doctorId == b.doctorId && a.dayOfWeek == b.dayOfWeek

def upsertRow (store : List AvailRow) (r : AvailRow) : List AvailRow :=
  if store.any (fun x => sameKey x r) then
    store.map (fun x => if sameKey x r then r else x)
  else store ++ [r]

def upsertSchedule (store : List AvailRow) (rows : List AvailRow) : List AvailRow :=
  rows.foldl upsertRow store

/-- availability.js lines 52-63: build the rows from the POST body and the
authenticated doctor's id, then upsert keyed on (doctor_id, day_of_week). -/
def availabilityPost (store : List AvailRow) (doctorId : Nat) (schedule : List SlotIn) :
    List AvailRow :=
  upsertSchedule store (schedule.map fun s =>
    { doctorId := doctorId, dayOfWeek := s.dayOfWeek, startTime := s.startTime,
      endTime := s.endTime, isActive := s.isActive })

/-- The (doctor, day-of-week) key of a row. -/
def keyOf (a : AvailRow) : Nat × String :=
  (a.doctorId, a.dayOfWeek)

/-- The store invariant: at most one row per (doctor, day-of-week) pair. -/
def uniqueKeys (store : List AvailRow) : Prop :=
  store.Pairwise (fun a b => keyOf a ≠ keyOf b)

/-! # Claims -/

/-! ## C1: slot generation -/

/-- C1 counterexample: on the active window 09:00-09:45 (minutes 540-585) the
generator emits the two slots 09:00 and 09:30 — not floor(45 / 30) = 1 slot —
and the emitted slot 09:30 has 09:30 + 30 min = 10:00 past the closing time
09:45, so the final partial remainder is emitted. -/
theorem slot_generation_floor_counterexample :
    genSlots 540 585 = [540, 570]
    ∧ ¬ ((genSlots 540 585).length = (585 - 540) / 30
        ∧ ∀ t ∈ genSlots 540 585, 540 ≤ t ∧ t + 30 ≤ 585) := by decide

/-- C1 (amended): for an active availability window [start, end) and the fixed
30-minute slot duration, the generator emits exactly ceil((end − start) / 30)
slots (written (end − start + 29) / 30 in natural division); every emitted
slot time t satisfies start ≤ t and t < end (a final slot with
t + 30 > end IS emitted whenever 30 does not divide end − start); and when
start = end it emits zero slots. -/
theorem slot_generation_spec (start fin : Nat) :
    (genSlots start fin).length = (fin - start + 29) / 30
    ∧ (∀ t ∈ genSlots start fin, start ≤ t ∧ t < fin)
    ∧ genSlots start start = [] := by
  refine ⟨genSlots_length_aux (fin - start) start fin (Nat.le_refl _),
    genSlots_mem_aux (fin - start) start fin (Nat.le_refl _), ?_⟩
  rw [genSlots_eq]
  simp

/-- Witness for `slot_generation_spec` at the window 09:00-10:00. -/
theorem slot_generation_spec_witness :
    (genSlots 540 600).length = (600 - 540 + 29) / 30 ∧ (540 ≤ 540 ∧ 540 < 600) :=
  ⟨(slot_generation_spec 540 600).1, (slot_generation_spec 540 600).2.1 540 (by decide)⟩

/-! ## C4: time normalization in the conflict detector -/

/-- C4: for appointment times that carry a colon (in particular `HH:MM:SS`
times with a trailing seconds component) and any queried slot time, the
conflict detector marks the slot taken exactly when the slot's string equals
the first five characters of some qualifying appointment's time, so
`14:00:00` and `14:00` compare equal. -/
theorem conflict_normalization (apts : List String) (slot : String)
    (h : ∀ a ∈ apts, a.toList.contains ':' = true) :
    slotTaken apts slot = true ↔ ∃ a ∈ apts, a.take 5 = slot := by
  unfold slotTaken
  rw [List.elem_iff, List.mem_map]
  constructor
  · rintro ⟨a, ha, hna⟩
    refine ⟨a, ha, ?_⟩
    rw [← hna]
    unfold normalizeTime
    rw [if_pos (h a ha)]
  · rintro ⟨a, ha, hta⟩
    refine ⟨a, ha, ?_⟩
    unfold normalizeTime
    rw [if_pos (h a ha), hta]

/-- Witness for `conflict_normalization`: the stored time `14:00:00` and the
slot `14:00` are treated as equal. -/
theorem conflict_normalization_witness : slotTaken ["14:00:00"] "14:00" = true :=
  (conflict_normalization ["14:00:00"] "14:00" (by decide)).mpr
    ⟨"14:00:00", by decide, by decide⟩

/-! ## C5: day_inactive short-circuit -/

/-- C5: when the weekday has no active availability row, the handler answers
`available: false`, reason `day_inactive`, empty slot list — identically for
every possible content of the appointments table, i.e. before conflicts are
even computed. -/
theorem day_inactive_short_circuit (appointments : List Apt) :
    checkAvailabilityHandler none appointments =
      { available := false, reason := some "day_inactive", slots := [] } := rfl

/-! ## C6: a failed conflict-check query skips the guard -/

/-- C6: when the pre-insert conflict query errors (checkOk = false), the
committer inserts the appointment and answers success for EVERY store —
including stores that do contain a conflicting non-cancelled appointment —
so the conflict guard is silently skipped. -/
theorem conflict_check_error_skips_guard (store : List Apt) (notifs : List Notif)
    (notifOk : Bool) (doc : Doctor) (date time : String) :
    (bookFinalize store notifs false notifOk doc date time).1 = store ++ [mkApt doc.id date time]
    ∧ (bookFinalize store notifs false notifOk doc date time).2.2
        = BookResp.success doc.name doc.specialty date time "pending" := by
  simp [bookFinalize]

/-! ## C2: the slot-conflict invariant -/

/-- The store rows at (doctor, date, time) with status pending/confirmed are
none when the conflict check reports no conflict. -/
theorem filter_eq_nil_of_no_conflict (store : List Apt) (d : Nat) (date time : String)
    (h : hasConflict store d date time = false) :
    store.filter (fun a => nonCancelledAt a d date time) = [] := by
  rw [List.filter_eq_nil_iff]
  intro a ha
  rw [hasConflict, List.any_eq_false] at h
  exact h a ha

theorem mkApt_nonCancelled (d : Nat) (date time : String) :
    nonCancelledAt (mkApt d date time) d date time = true := by
  simp [mkApt, nonCancelledAt]

/-- C2 counterexample: in the interleaving of two concurrent commits at the
same (doctor, date, time) in which both conflict checks read the store before
either insert runs, both inserts go through, and the store ends up holding
two non-cancelled appointments at the identical (provider, date, time) — the
repository defines no storage-level uniqueness constraint on appointments
that would reject the second insert. -/
theorem slot_conflict_race_counterexample :
    ((raceInterleaving [] ⟨1, 10, "Cardiology", "Alice Heart"⟩ "2026-10-13" "09:00").filter
      (fun a => nonCancelledAt a 1 "2026-10-13" "09:00")).length = 2 := by decide

/-- C2 (amended): for sequential (non-interleaved) commits the guard works:
when a commit at (doctor, date, time) succeeds from a conflict-free store,
the resulting store holds exactly one non-cancelled appointment at that slot,
and a subsequent commit attempt at the identical slot fails with the
slot-conflict response and performs no insert.  Under concurrent
interleaving the invariant can be violated (see the counterexample). -/
theorem commit_sequential_guard (store : List Apt) (notifs : List Notif) (notifOk : Bool)
    (doc : Doctor) (date time : String)
    (h : hasConflict store doc.id date time = false) :
    (bookFinalize store notifs true notifOk doc date time).2.2
      = BookResp.success doc.name doc.specialty date time "pending"
    ∧ (((bookFinalize store notifs true notifOk doc date time).1).filter
        (fun a => nonCancelledAt a doc.id date time)).length = 1
    ∧ (bookFinalize (bookFinalize store notifs true notifOk doc date time).1 notifs true notifOk
        doc date time).2.2 = BookResp.conflict
    ∧ (bookFinalize (bookFinalize store notifs true notifOk doc date time).1 notifs true notifOk
        doc date time).1 = (bookFinalize store notifs true notifOk doc date time).1 := by
  have hfil := filter_eq_nil_of_no_conflict store doc.id date time h
  have hstore1 : (bookFinalize store notifs true notifOk doc date time).1
      = store ++ [mkApt doc.id date time] := by
    simp [bookFinalize, hfil]
  have hfil1 : ((store ++ [mkApt doc.id date time]).filter
      (fun a => nonCancelledAt a doc.id date time)) = [mkApt doc.id date time] := by
    rw [List.filter_append, hfil]
    simp [mkApt_nonCancelled]
  refine ⟨?_, ?_, ?_, ?_⟩
  · simp [bookFinalize, hfil]
  · rw [hstore1, hfil1]
    rfl
  · rw [hstore1]
    simp [bookFinalize, hfil1]
  · rw [hstore1]
    simp [bookFinalize, hfil1]

/-- Witness for `commit_sequential_guard` from the empty store. -/
theorem commit_sequential_guard_witness :
    (bookFinalize [] [] true true ⟨1, 10, "Cardiology", "Alice"⟩ "2026-10-13" "09:00").2.2
      = BookResp.success "Alice" "Cardiology" "2026-10-13" "09:00" "pending" :=
  (commit_sequential_guard [] [] true ⟨1, 10, "Cardiology", "Alice"⟩ "2026-10-13" "09:00"
    (by decide)).1

/-! ## C7: notification failure never fails the booking -/

/-- C7: the committer's appointment store and HTTP response are identical
whether the notification insert succeeds or fails (only the notification
store differs), and when the insert path is reached the response is still the
success response carrying the resolved doctor name and specialty, with the
appointment kept in the store. -/
theorem notification_failure_isolated (store : List Apt) (notifs : List Notif)
    (doc : Doctor) (date time : String) :
    ((bookFinalize store notifs true false doc date time).1
      = (bookFinalize store notifs true true doc date time).1)
    ∧ ((bookFinalize store notifs true false doc date time).2.2
      = (bookFinalize store notifs true true doc date time).2.2)
    ∧ (hasConflict store doc.id date time = false →
        (bookFinalize store notifs true false doc date time).2.2
          = BookResp.success doc.name doc.specialty date time "pending"
        ∧ (bookFinalize store notifs true false doc date time).1
          = store ++ [mkApt doc.id date time]) := by
  refine ⟨?_, ?_, fun h => ?_⟩
  · by_cases hc : 0 < (store.filter (fun a => nonCancelledAt a doc.id date time)).length
    · simp [bookFinalize, hc]
    · simp [bookFinalize, hc]
  · by_cases hc : 0 < (store.filter (fun a => nonCancelledAt a doc.id date time)).length
    · simp [bookFinalize, hc]
    · simp [bookFinalize, hc]
  · have hfil := filter_eq_nil_of_no_conflict store doc.id date time h
    constructor
    · simp [bookFinalize, hfil]
    · simp [bookFinalize, hfil]

/-- Witness for `notification_failure_isolated` from the empty store. -/
theorem notification_failure_isolated_witness :
    (bookFinalize [] [] true false ⟨1, 10, "Cardiology", "Alice"⟩ "2026-10-13" "09:00").2.2
      = BookResp.success "Alice" "Cardiology" "2026-10-13" "09:00" "pending" :=
  ((notification_failure_isolated [] [] ⟨1, 10, "Cardiology", "Alice"⟩ "2026-10-13"
    "09:00").2.2 (by decide)).1

/-! ## C3: three-way availability classification -/

/-- C3 counterexample: with the Monday window 09:00-10:00 and one pending
appointment at 09:30, the availability check produces the identical outcome
(the single boolean `false`, with no reason code) for the out-of-bounds
request 11:00 and for the already-taken request 09:30 — `time_out_of_bounds`
and `fully_booked` are not distinct outputs of the check. -/
theorem three_way_classification_counterexample :
    isTimeAvailable
        ((checkAvailabilityHandler (some ⟨9, 0, 10, 0⟩)
          [⟨1, "2026-10-12", "09:30:00", "pending"⟩]).slots) "11:00"
      = isTimeAvailable
        ((checkAvailabilityHandler (some ⟨9, 0, 10, 0⟩)
          [⟨1, "2026-10-12", "09:30:00", "pending"⟩]).slots) "09:30"
    ∧ isTimeAvailable
        ((checkAvailabilityHandler (some ⟨9, 0, 10, 0⟩)
          [⟨1, "2026-10-12", "09:30:00", "pending"⟩]).slots) "09:30" = false
    ∧ (checkAvailabilityHandler (some ⟨9, 0, 10, 0⟩)
        [⟨1, "2026-10-12", "09:30:00", "pending"⟩]).reason = none := by decide

/-- C3 (amended): the requested-time check is a single boolean: it reports
available exactly when the normalized requested time is non-empty and some
generated slot carries that exact time and is still marked available.  A
requested time matching no generated slot and a requested time matching a
taken slot both collapse to the same `false`; only `day_inactive` (see C5) is
a distinct reason code. -/
theorem requested_time_boolean_collapse (slots : List SlotEntry) (requestedTime : String) :
    isTimeAvailable slots requestedTime = true ↔
      (clientNormalize requestedTime ≠ ""
        ∧ ∃ s ∈ slots, s.time = clientNormalize requestedTime ∧ s.available = true) := by
  simp [isTimeAvailable, List.any_eq_true]

/-! ## C8: resolver order (specialty vs name) -/

/-- C8 counterexample: with a roster containing a Cardiologist (Alice) and a
Dermatologist (Bob), input name "Bob Skin" and speciality "Cardiologist", and
a confident fuzzy name match for Bob, the resolver returns Bob — even though
the case-insensitive specialty substring match would have selected Alice —
so the specialty match is NOT attempted before fuzzy name matching. -/
theorem specialty_first_counterexample :
    resolveDoctors
        [⟨1, 10, "Cardiologist", "Alice Heart"⟩, ⟨2, 20, "Dermatologist", "Bob Skin"⟩]
        "Bob Skin" (some "Cardiologist") (some ⟨some 2, mkRat 9 10⟩)
      = [⟨2, 20, "Dermatologist", "Bob Skin"⟩]
    ∧ List.filter (specialtyMatches "Cardiologist")
        [⟨1, 10, "Cardiologist", "Alice Heart"⟩, ⟨2, 20, "Dermatologist", "Bob Skin"⟩]
      = [⟨1, 10, "Cardiologist", "Alice Heart"⟩]
    ∧ (⟨2, 20, "Dermatologist", "Bob Skin"⟩ : Doctor) ≠ ⟨1, 10, "Cardiologist", "Alice Heart"⟩ := by
  decide

/-- C8 (amended): the resolver attempts LLM-based fuzzy matching on the
provider display name FIRST; the exact-or-substring case-insensitive
specialty match is only a fallback, used exactly when the name step yields no
doctor (and a non-empty speciality was supplied). -/
theorem resolver_order (roster : List Doctor) (dIn sp : String) (llm : Option MatchResult)
    (hd : dIn ≠ "") (hsp : sp ≠ "") :
    (nameMatch roster llm ≠ [] →
      resolveDoctors roster dIn (some sp) llm = nameMatch roster llm)
    ∧ (nameMatch roster llm = [] →
      resolveDoctors roster dIn (some sp) llm = roster.filter (specialtyMatches sp)) := by
  have hd' : (dIn == "") = false := by simp [hd]
  have hsp' : (sp == "") = false := by simp [hsp]
  constructor
  · intro h
    cases hn : nameMatch roster llm with
    | nil => exact absurd hn h
    | cons a l => simp [resolveDoctors, hd', hn]
  · intro h
    simp [resolveDoctors, hd', h, hsp']

/-- Witness for `resolver_order`: the confident name match wins over the
matching specialty. -/
theorem resolver_order_witness :
    resolveDoctors
        [⟨1, 10, "Cardiologist", "Alice Heart"⟩, ⟨2, 20, "Dermatologist", "Bob Skin"⟩]
        "Bob Skin" (some "Cardiologist") (some ⟨some 2, mkRat 9 10⟩)
      = nameMatch
        [⟨1, 10, "Cardiologist", "Alice Heart"⟩, ⟨2, 20, "Dermatologist", "Bob Skin"⟩]
        (some ⟨some 2, mkRat 9 10⟩) :=
  (resolver_order
    [⟨1, 10, "Cardiologist", "Alice Heart"⟩, ⟨2, 20, "Dermatologist", "Bob Skin"⟩]
    "Bob Skin" "Cardiologist" (some ⟨some 2, mkRat 9 10⟩)
    (by decide) (by decide)).1 (by decide)

/-! ## C9: the 0.6 confidence threshold -/

/-- C9: a fuzzy name-match result is accepted exactly when it carries a match
id, its confidence is strictly above 0.6, and the id occurs in the roster;
at or below the threshold, or without a match id, the name step resolves
nothing and resolution falls through to the specialty search when a
speciality was supplied, and otherwise the route fails echoing the original
search term. -/
theorem nameMatch_some (roster : List Doctor) (m : MatchResult) :
    nameMatch roster (some m) =
      match m.matchId with
      | none => []
      | some mid =>
        if mkRat 6 10 < m.confidence then
          match roster.find? (fun d => d.id == mid) with
          | some d => [d]
          | none => []
        else [] := rfl

theorem confidence_threshold (roster : List Doctor) (m : MatchResult) (dIn : String)
    (hd : dIn ≠ "") :
    (m.confidence ≤ mkRat 6 10 → nameMatch roster (some m) = [])
    ∧ (m.matchId = none → nameMatch roster (some m) = [])
    ∧ (∀ i d, m.matchId = some i → mkRat 6 10 < m.confidence →
        roster.find? (fun dd => dd.id == i) = some d → nameMatch roster (some m) = [d])
    ∧ (nameMatch roster (some m) = [] →
        resolveProvider roster dIn none (some m) = Except.error dIn)
    ∧ (∀ sp : String, sp ≠ "" → nameMatch roster (some m) = [] →
        resolveDoctors roster dIn (some sp) (some m) = roster.filter (specialtyMatches sp)) := by
  refine ⟨?_, ?_, ?_, ?_, ?_⟩
  · intro hle
    rw [nameMatch_some]
    cases hmid : m.matchId with
    | none => rfl
    | some mid => exact if_neg (not_lt.mpr hle)
  · intro hnone
    rw [nameMatch_some, hnone]
  · intro i d hmid hconf hfind
    rw [nameMatch_some, hmid]
    exact (if_pos hconf).trans (by rw [hfind])
  · intro hnil
    have hd' : (dIn == "") = false := by simp [hd]
    unfold resolveProvider
    simp only [resolveDoctors, hd', Bool.false_eq_true, if_false, hnil, List.isEmpty_nil,
      if_true]
    simp [searchTerm, hd']
  · intro sp hsp hnil
    have hd' : (dIn == "") = false := by simp [hd]
    have hsp' : (sp == "") = false := by simp [hsp]
    simp [resolveDoctors, hd', hnil, hsp']

/-- Witness for `confidence_threshold` at confidence exactly 0.6: the match is
rejected and the route answers `ProviderNotFound` echoing "Alicia". -/
theorem confidence_threshold_witness :
    nameMatch [⟨1, 10, "Cardiologist", "Alice Heart"⟩] (some ⟨some 1, mkRat 6 10⟩) = []
    ∧ resolveProvider [⟨1, 10, "Cardiologist", "Alice Heart"⟩] "Alicia" none
        (some ⟨some 1, mkRat 6 10⟩) = Except.error "Alicia" := by
  have h := confidence_threshold [⟨1, 10, "Cardiologist", "Alice Heart"⟩]
    ⟨some 1, mkRat 6 10⟩ "Alicia" (by decide)
  exact ⟨h.1 (le_refl _), h.2.2.2.1 (h.1 (le_refl _))⟩

/-! ## C10: at most one availability row per (doctor, day-of-week) -/

theorem sameKey_iff_keyOf (a b : AvailRow) : sameKey a b = true ↔ keyOf a = keyOf b := by
  simp [sameKey, keyOf, Prod.ext_iff]

theorem upsertRow_uniqueKeys (store : List AvailRow) (r : AvailRow) (h : uniqueKeys store) :
    uniqueKeys (upsertRow store r) := by
  unfold upsertRow
  by_cases hany : store.any (fun x => sameKey x r) = true
  · rw [if_pos hany]
    unfold uniqueKeys at h ⊢
    have hk : ∀ x : AvailRow, keyOf (if sameKey x r then r else x) = keyOf x := by
      intro x
      by_cases hx : sameKey x r = true
      · rw [if_pos hx, ← (sameKey_iff_keyOf x r).mp hx]
      · rw [if_neg hx]
    exact List.Pairwise.map _ (fun a b hab => by rw [hk a, hk b]; exact hab) h
  · rw [if_neg hany]
    unfold uniqueKeys at h ⊢
    rw [List.pairwise_append]
    refine ⟨h, List.pairwise_singleton _ _, ?_⟩
    intro a ha b hb
    have hb' : b = r := by simpa using hb
    subst hb'
    intro hkey
    apply hany
    rw [List.any_eq_true]
    exact ⟨a, ha, (sameKey_iff_keyOf a b).mpr hkey⟩

theorem upsertSchedule_uniqueKeys (rows : List AvailRow) : ∀ store, uniqueKeys store →
    uniqueKeys (upsertSchedule store rows) := by
  induction rows with
  | nil => intro store h; exact h
  | cons r rows ih =>
    intro store h
    exact ih (upsertRow store r) (upsertRow_uniqueKeys store r h)

/-- C10: starting from any store with at most one row per
(doctor, day-of-week) pair, a weekly-schedule POST preserves that invariant
(upserts keyed on doctor+day replace the existing row), and whenever a
submitted row's key is already present the upsert keeps the row count
unchanged — it replaces, it does not append a duplicate. -/
theorem availability_upsert_invariant (store : List AvailRow) (doctorId : Nat)
    (schedule : List SlotIn) (h : uniqueKeys store) :
    uniqueKeys (availabilityPost store doctorId schedule)
    ∧ ∀ r, store.any (fun x => sameKey x r) = true →
        (upsertRow store r).length = store.length := by
  constructor
  · exact upsertSchedule_uniqueKeys _ store h
  · intro r hr
    unfold upsertRow
    rw [if_pos hr, List.length_map]

/-- Witness for `availability_upsert_invariant`: posting two schedule rows for
the same day from the empty store leaves a single Monday row. -/
theorem availability_upsert_invariant_witness :
    uniqueKeys (availabilityPost [] 1
      [⟨"Monday", "09:00", "17:00", true⟩, ⟨"Monday", "10:00", "18:00", true⟩]) :=
  (availability_upsert_invariant [] 1
    [⟨"Monday", "09:00", "17:00", true⟩, ⟨"Monday", "10:00", "18:00", true⟩]
    (by unfold uniqueKeys; exact List.Pairwise.nil)).1
